import Mathlib

/-!
Shallow embedding of the helles-client TypeScript library (src/index.ts) and
proofs about its observable behaviour.

The embedding covers:
* the time-synchronization state machine (`startTimeSync` success branch and
  `incrementBackoff`), modelled as a step function on `TimeSyncState`;
* the event-logging pipeline `logTraceEvent` (trace-key suffixing, attribute
  label/icon injection, timestamp and sender validation, trace registration
  with its idempotency cache, event submission), modelled as a pure function
  from the client configuration, the registration cache, and a transport
  oracle (the responses the network would give) to a result recording the
  outcome, the new cache, and the list of network calls issued;
* `deleteTrace` with its API-key / trace-key checks and cache eviction;
* the error-routing policy of the outer catch blocks (per-call handler,
  then client-wide handler, then rethrow).

JS numbers holding millisecond quantities are modelled as `Int` (they are
integer-valued and far below 2^53) except where the source divides by 2
(`latency = rtt / 2`), where rationals are used. JS string truthiness is a
non-emptiness test. Response bodies are abstracted as a structure carrying the
parsed optional `error` field, the rendered serialization and the JS
truthiness of the parsed value; the transport oracle hands a fully parsed
body for each request, so a JSON parse failure is modelled as a transport
failure.
-/

namespace Helles

/-- Sync-interval constants from source lines 33-35. -/
def BASE_SYNC_INTERVAL_MS : Nat := 30000

/-- Backoff step added to the sync interval on each failure (source line 34). -/
def BACKOFF_STEP_MS : Nat := 15000

/-- Upper cap on the sync interval (source line 35). -/
def MAX_SYNC_INTERVAL_MS : Nat := 180000

/-- Embedding of the `TimeSyncState` record (source lines 26-31). `latency`
and `offset` are rationals because `latency = rtt / 2` may be a half-integer
in JS arithmetic. -/
structure TimeSyncState where
  latency : Option ℚ
  offset : ℚ
  lastCheck : Option ℤ
  nextIntervalMs : Nat
deriving DecidableEq

/-- Initial state installed by the constructor (source lines 52-57). -/
def initTimeSync : TimeSyncState :=
  { latency := none,
    offset := 0,
    lastCheck := none,
    nextIntervalMs := BASE_SYNC_INTERVAL_MS }

/-- Embedding of `incrementBackoff` (source lines 175-183): add the backoff
step, capped at the maximum, leaving every other field unchanged. -/
def incrementBackoff (st : TimeSyncState) : TimeSyncState :=
  { st with
    nextIntervalMs := min (st.nextIntervalMs + BACKOFF_STEP_MS) MAX_SYNC_INTERVAL_MS }

/-- Observable outcome of one sync attempt: either the `/time` call returned
a numeric `serverUtcMilliseconds` (with the local send and receive times), or
the attempt failed (transport error or non-numeric payload, source lines
148-159, both of which call `incrementBackoff` on a non-initial attempt). -/
inductive SyncEvent where
  | success (sendTime receiveTime serverUtcMilliseconds : ℤ)
  | failure
deriving DecidableEq

/-- One iteration of the sync loop body (source lines 123-164): on success
compute `rtt`, `latency`, `clientTimeAtServer` and `offset` exactly as lines
131-147 do and install the fresh state; on failure run `incrementBackoff`. -/
def syncStep (st : TimeSyncState) : SyncEvent → TimeSyncState
  | SyncEvent.success sendTime receiveTime serverUtcMilliseconds =>
    let rtt : ℤ := receiveTime - sendTime
    let latency : ℚ := (rtt : ℚ) / 2
    let clientTimeAtServer : ℚ := (receiveTime : ℚ) - latency
    let offset : ℚ := (serverUtcMilliseconds : ℚ) - clientTimeAtServer
    { latency := some latency,
      offset := offset,
      lastCheck := some receiveTime,
      nextIntervalMs := BASE_SYNC_INTERVAL_MS }
  | SyncEvent.failure => incrementBackoff st

/-- Every reachable `nextIntervalMs` has the shape
`BASE + STEP * k` with `k ≤ 10`; one step preserves the shape. -/
lemma nextInterval_shape_step (st : TimeSyncState) (e : SyncEvent)
    (h : ∃ k, k ≤ 10 ∧
      st.nextIntervalMs = BASE_SYNC_INTERVAL_MS + BACKOFF_STEP_MS * k) :
    ∃ k, k ≤ 10 ∧
      (syncStep st e).nextIntervalMs
        = BASE_SYNC_INTERVAL_MS + BACKOFF_STEP_MS * k := by
  cases e with
  | success s r m =>
    refine ⟨0, by omega, ?_⟩
    simp [syncStep]
  | failure =>
    obtain ⟨k, hk, hn⟩ := h
    refine ⟨min (k + 1) 10, by omega, ?_⟩
    simp only [syncStep, incrementBackoff, hn, BASE_SYNC_INTERVAL_MS,
      BACKOFF_STEP_MS, MAX_SYNC_INTERVAL_MS]
    omega

/-- The shape invariant is preserved by any run of the sync loop. -/
lemma nextInterval_shape_foldl :
    ∀ (evs : List SyncEvent) (st : TimeSyncState),
      (∃ k, k ≤ 10 ∧
        st.nextIntervalMs = BASE_SYNC_INTERVAL_MS + BACKOFF_STEP_MS * k) →
      ∃ k, k ≤ 10 ∧
        (evs.foldl syncStep st).nextIntervalMs
          = BASE_SYNC_INTERVAL_MS + BACKOFF_STEP_MS * k := by
  intro evs
  induction evs with
  | nil => intro st h; simpa using h
  | cons e rest ih =>
    intro st h
    simpa using ih (syncStep st e) (nextInterval_shape_step st e h)

/-- C1: for every successful time-sync attempt (the `/time` call returned a
numeric `serverUtcMilliseconds`), the stored state satisfies
`offset = serverUtcMilliseconds - (receiveTime - latency)` with
`latency = (receiveTime - sendTime) / 2`, and the state records
`lastCheck = receiveTime` and `nextIntervalMs = BASE_SYNC_INTERVAL_MS`. -/
theorem c1_sync_success_state (st : TimeSyncState)
    (sendTime receiveTime serverUtcMilliseconds : ℤ) :
    (syncStep st (SyncEvent.success sendTime receiveTime serverUtcMilliseconds)).offset
      = (serverUtcMilliseconds : ℚ)
        - ((receiveTime : ℚ) - ((receiveTime : ℚ) - (sendTime : ℚ)) / 2)
    ∧ (syncStep st (SyncEvent.success sendTime receiveTime serverUtcMilliseconds)).latency
      = some (((receiveTime : ℚ) - (sendTime : ℚ)) / 2)
    ∧ (syncStep st (SyncEvent.success sendTime receiveTime serverUtcMilliseconds)).lastCheck
      = some receiveTime
    ∧ (syncStep st (SyncEvent.success sendTime receiveTime serverUtcMilliseconds)).nextIntervalMs
      = BASE_SYNC_INTERVAL_MS := by
  refine ⟨?_, ?_, rfl, rfl⟩
  · simp [syncStep]
  · simp [syncStep]

/-- C2: in every reachable time-sync state the interval lies in
`[30000, 180000]`; a successful sync resets it to `30000`; a failure never
decreases it, increments it by exactly `15000` while it is below the cap, and
leaves it at `180000` once the cap is reached. -/
theorem c2_next_interval_invariant (evs : List SyncEvent) :
    (BASE_SYNC_INTERVAL_MS ≤ (evs.foldl syncStep initTimeSync).nextIntervalMs
      ∧ (evs.foldl syncStep initTimeSync).nextIntervalMs ≤ MAX_SYNC_INTERVAL_MS)
    ∧ (∀ s r m : ℤ,
        (syncStep (evs.foldl syncStep initTimeSync)
          (SyncEvent.success s r m)).nextIntervalMs = BASE_SYNC_INTERVAL_MS)
    ∧ (evs.foldl syncStep initTimeSync).nextIntervalMs
        ≤ (syncStep (evs.foldl syncStep initTimeSync) SyncEvent.failure).nextIntervalMs
    ∧ ((evs.foldl syncStep initTimeSync).nextIntervalMs < MAX_SYNC_INTERVAL_MS →
        (syncStep (evs.foldl syncStep initTimeSync) SyncEvent.failure).nextIntervalMs
          = (evs.foldl syncStep initTimeSync).nextIntervalMs + BACKOFF_STEP_MS)
    ∧ ((evs.foldl syncStep initTimeSync).nextIntervalMs = MAX_SYNC_INTERVAL_MS →
        (syncStep (evs.foldl syncStep initTimeSync) SyncEvent.failure).nextIntervalMs
          = MAX_SYNC_INTERVAL_MS) := by
  obtain ⟨k, hk, hn⟩ := nextInterval_shape_foldl evs initTimeSync
    ⟨0, by omega, by simp [initTimeSync]⟩
  refine ⟨⟨?_, ?_⟩, ?_, ?_, ?_, ?_⟩
  · simp only [hn, BASE_SYNC_INTERVAL_MS, BACKOFF_STEP_MS]
    omega
  · simp only [hn, BASE_SYNC_INTERVAL_MS, BACKOFF_STEP_MS, MAX_SYNC_INTERVAL_MS]
    omega
  · intro s r m
    simp [syncStep]
  · simp only [syncStep, incrementBackoff, hn, BASE_SYNC_INTERVAL_MS,
      BACKOFF_STEP_MS, MAX_SYNC_INTERVAL_MS]
    omega
  · intro hlt
    simp only [syncStep, incrementBackoff, hn, BASE_SYNC_INTERVAL_MS,
      BACKOFF_STEP_MS, MAX_SYNC_INTERVAL_MS] at hlt ⊢
    omega
  · intro heq
    simp only [syncStep, incrementBackoff, heq, BACKOFF_STEP_MS,
      MAX_SYNC_INTERVAL_MS]
    omega

/-- Witness for C2 at a concrete run: after one failure the interval is
`45000`, strictly below the cap, and the next failure adds exactly `15000`. -/
theorem c2_next_interval_invariant_witness :
    ([SyncEvent.failure].foldl syncStep initTimeSync).nextIntervalMs
        < MAX_SYNC_INTERVAL_MS
    ∧ (syncStep ([SyncEvent.failure].foldl syncStep initTimeSync)
        SyncEvent.failure).nextIntervalMs
      = ([SyncEvent.failure].foldl syncStep initTimeSync).nextIntervalMs
          + BACKOFF_STEP_MS := by
  have h := c2_next_interval_invariant [SyncEvent.failure]
  exact ⟨by decide, h.2.2.2.1 (by decide)⟩

/-- C9: a failed sync attempt leaves `offset`, `latency` and `lastCheck`
unchanged; only `nextIntervalMs` is touched by `incrementBackoff`. -/
theorem c9_failure_preserves_offset (st : TimeSyncState) :
    (syncStep st SyncEvent.failure).offset = st.offset
    ∧ (syncStep st SyncEvent.failure).latency = st.latency
    ∧ (syncStep st SyncEvent.failure).lastCheck = st.lastCheck
    ∧ (incrementBackoff st).offset = st.offset
    ∧ (incrementBackoff st).latency = st.latency
    ∧ (incrementBackoff st).lastCheck = st.lastCheck := by
  refine ⟨?_, ?_, ?_, ?_, ?_, ?_⟩ <;> simp [syncStep, incrementBackoff]

/-- A JS value stored in an attribute mapping. -/
inductive JsVal where
  | str (s : String)
  | num (n : Int)
  | boolVal (b : Bool)
  | nullVal
deriving DecidableEq

/-- A JS object used as a key-value attribute mapping, in property order. -/
abbrev AttrMap : Type := List (String × JsVal)

/-- JS property assignment `obj[k] = v`: overwrite the first entry with key
`k` in place, or append a new entry. -/
def setKey : AttrMap → String → JsVal → AttrMap
  | [], k, v => [(k, v)]
  | kv :: rest, k, v =>
    if kv.1 = k then (k, v) :: rest else kv :: setKey rest k v

/-- JS property read `obj[k]`. -/
def lookupAttr : AttrMap → String → Option JsVal
  | [], _ => none
  | kv :: rest, k => if kv.1 = k then some kv.2 else lookupAttr rest k

/-- JS truthiness of an optional string: `undefined` and the empty string are
falsy, every other string is truthy. -/
def strTruthy : Option String → Bool
  | none => false
  | some s => !(s == "")

/-- The parsed JSON body of a response, abstracted: the optional string
`error` property, the `wf_stringify` rendering, and the JS truthiness of the
parsed value. -/
structure RespBody where
  errorField : Option String
  rendered : String
  isTruthy : Bool
deriving DecidableEq

/-- What the transport collaborator does for one request: deliver a status
code and a parsed body, or fail (network error; a body that fails to parse
where the source has no `.catch` is also a thrown error on that path). -/
inductive TransportResult where
  | ok (statusCode : Nat) (body : RespBody)
  | netFail (message : String)
deriving DecidableEq

/-- Body of the POST `/traces` registration request (source lines 250-254). -/
structure RegisterPayload where
  traceKey : String
  traceType : String
  traceString : String
deriving DecidableEq

/-- Body of the POST `/events` request (source lines 278-286). -/
structure EventPayload where
  traceKey : String
  eventTypeKey : String
  eventString : Option String
  eventAttributes : AttrMap
  eventSender : String
  eventTimestampUtc : Int
  eventUniquer : Option String
deriving DecidableEq

/-- Body of the POST `/traces/delete` request (source lines 355-358). -/
structure DeletePayload where
  apiKey : String
  traceKey : String
deriving DecidableEq

/-- One outgoing network request issued by the client. -/
inductive NetCall where
  | registerTrace (payload : RegisterPayload)
  | postEvent (payload : EventPayload)
  | deleteTraceReq (payload : DeletePayload)
deriving DecidableEq

/-- The errors thrown by the source, classified by throw site; each carries
enough to reconstruct the `Error` message (see `HlError.message`). -/
inductive HlError where
  | validationTimestampOutOfRange (ts : Int)
  | validationSenderRequired
  | validationTraceKeyRequired
  | configurationApiKeyRequired
  | registrationFailed (message : String)
  | submissionFailed (message : String)
  | deletionFailed (message : String)
deriving DecidableEq

/-- The `Error.message` string of each error, as the source builds it. -/
def HlError.message : HlError → String
  | HlError.validationTimestampOutOfRange ts =>
    "eventTimestampUtc value " ++ toString ts
      ++ " is out of range - expected Unix millisecond timestamp"
  | HlError.validationSenderRequired => "eventSender is required"
  | HlError.validationTraceKeyRequired => "traceKey is required"
  | HlError.configurationApiKeyRequired => "API key is required for deleteTrace"
  | HlError.registrationFailed m => m
  | HlError.submissionFailed m => m
  | HlError.deletionFailed m => m

/-- How an operation settles after the outer catch block ran: either the
promise resolves (with a body, or with `undefined` after an error was handed
to an error handler) or it rejects with the error. -/
inductive JsSettle where
  | resolved (value : Option RespBody)
  | rejected (e : HlError)
deriving DecidableEq

/-- Outcome of the outer catch block (source lines 314-323 and 389-397):
success, error absorbed by the per-call handler, error absorbed by the
client-wide handler, or error rethrown to the caller. -/
inductive RouteOutcome where
  | ok (body : RespBody)
  | absorbedPerCall (e : HlError)
  | absorbedClientWide (e : HlError)
  | thrown (e : HlError)
deriving DecidableEq

/-- The error-routing policy of the outer catch blocks: per-call handler
first, then the client-wide handler, else rethrow. -/
def routeError (perCallHandler clientWideHandler : Bool) (e : HlError) :
    RouteOutcome :=
  if perCallHandler then RouteOutcome.absorbedPerCall e
  else if clientWideHandler then RouteOutcome.absorbedClientWide e
  else RouteOutcome.thrown e

/-- How each routed outcome settles: a caught-and-handled error makes the
async function fall off the end of the catch block, resolving with
`undefined`. -/
def RouteOutcome.settle : RouteOutcome → JsSettle
  | RouteOutcome.ok b => JsSettle.resolved (some b)
  | RouteOutcome.absorbedPerCall _ => JsSettle.resolved none
  | RouteOutcome.absorbedClientWide _ => JsSettle.resolved none
  | RouteOutcome.thrown e => JsSettle.rejected e

/-- The client configuration `defaults` (source lines 44-50) together with
the presence of a client-wide error handler. `eventTimestampFuncVal` is the
value the configured custom timestamp source would return (none when no
custom source is configured). -/
structure Defaults where
  sender : Option String
  traceType : Option String
  eventTimestampFuncVal : Option Int
  onError : Bool
  traceSuffix : Option String
deriving DecidableEq

/-- Parameters of one `logTraceEvent` call (source lines 201-223); `onError`
records whether a per-call error handler was supplied. -/
structure LogParams where
  traceKey : String
  eventType : String
  eventString : Option String
  eventSender : Option String
  eventAttributes : AttrMap
  eventTimestampUtc : Option Int
  eventUniquer : Option String
  eventTypeLabel : Option String
  eventTypeIcon : Option String
  onError : Bool
deriving DecidableEq

/-- `applyTraceSuffix` (source lines 96-99): append the configured suffix
when it is truthy. -/
def applyTraceSuffix (cfg : Defaults) (traceKey : String) : String :=
  match cfg.traceSuffix with
  | some suffix => if suffix = "" then traceKey else traceKey ++ suffix
  | none => traceKey

/-- Lines 226-227: JS-truthy label/icon overrides are assigned into the
caller's `eventAttributes` object in place, label first. -/
def injectAttrs (attrs : AttrMap) (label icon : Option String) : AttrMap :=
  let withLabel :=
    match label with
    | some l => if l = "" then attrs else setKey attrs "eventTypeLabel" (JsVal.str l)
    | none => attrs
  match icon with
  | some i => if i = "" then withLabel else setKey withLabel "eventTypeIcon" (JsVal.str i)
  | none => withLabel

/-- Lines 229-231: explicit timestamp if passed (`!== undefined`), else the
configured custom timestamp source, else the synchronized clock `this.now()`
(passed in as `nowMs`). -/
def effectiveTimestamp (cfg : Defaults) (nowMs : Int) (p : LogParams) : Int :=
  let defaultTimestamp := (cfg.eventTimestampFuncVal).getD nowMs
  (p.eventTimestampUtc).getD defaultTimestamp

/-- Lower bound of the sane-timestamp window (source line 235). -/
def lowerTsBoundMs : Int := 1665000000000

/-- Upper bound of the sane-timestamp window (source line 234). -/
def upperTsBoundMs : Int := 2565000000000

/-- Lines 233-236: the timestamp range check, strict on both sides. -/
def tsOutOfRange (ts : Int) : Bool :=
  decide (ts > upperTsBoundMs) || decide (ts < lowerTsBoundMs)

/-- Line 242: `eventSender || defaults.sender` — the JS `||` falls back when
the explicit sender is absent or empty; the result is `none` exactly when
the subsequent `== undefined` check throws. -/
def effectiveSender (explicit dflt : Option String) : Option String :=
  match explicit with
  | some s => if s = "" then dflt else some s
  | none => dflt

/-- Whether `sub` occurs inside `s` (JS `String.includes`). -/
def strContains (s sub : String) : Bool := decide (2 ≤ (s.splitOn sub).length)

/-- Rendering of `HTTP <status>` fallback details. -/
def httpStatusDetail (status : Nat) : String := "HTTP " ++ toString status

/-- Lines 263-264: detail for a rejected registration response. -/
def registerErrorDetails (body : RespBody) (status : Nat) : String :=
  if body.isTruthy then body.rendered else httpStatusDetail status

/-- Lines 267-273: the registration catch block rethrows messages already
prefixed with the registration marker and wraps any other. -/
def registerCatchMessage (msg : String) : String :=
  if strContains msg "registerTrace err:" then msg
  else "registerTrace err: " ++ msg

/-- Lines 295-302: message for a rejected event submission, preferring the
structured `error` property of the body. -/
def submitStatusMessage (body : RespBody) (status : Nat) : String :=
  match body.errorField with
  | some e => "logTraceEvent err: " ++ e
  | none =>
    "logTraceEvent err: "
      ++ (if body.isTruthy then body.rendered else httpStatusDetail status)

deriving instance DecidableEq for Except

/-- Result of the body of `logTraceEvent` up to but excluding the outer
catch block: the inner result (or thrown error), the registration cache
afterwards, the network calls issued, and the contents of the caller's
`eventAttributes` object afterwards (the source mutates it in place). -/
structure InnerResult where
  result : Except HlError RespBody
  cache : Finset String
  calls : List NetCall
  callerAttrs : AttrMap
deriving DecidableEq

/-- Lines 288-313: issue the POST `/events` request and interpret the
response; the inner catch re-wraps the message with a second
`logTraceEvent err:` prefix for thrown status errors. -/
def submitEvent (evtResp : TransportResult) (cache : Finset String)
    (callsSoFar : List NetCall) (payload : EventPayload)
    (attrs : AttrMap) : InnerResult :=
  let calls := callsSoFar ++ [NetCall.postEvent payload]
  match evtResp with
  | TransportResult.netFail msg =>
    { result := Except.error (HlError.submissionFailed ("logTraceEvent err: " ++ msg)),
      cache := cache, calls := calls, callerAttrs := attrs }
  | TransportResult.ok status body =>
    if 400 ≤ status then
      { result := Except.error (HlError.submissionFailed
          ("logTraceEvent err: " ++ submitStatusMessage body status)),
        cache := cache, calls := calls, callerAttrs := attrs }
    else
      { result := Except.ok body, cache := cache, calls := calls,
        callerAttrs := attrs }

/-- The body of `logTraceEvent` (source lines 224-313): suffix the trace
key, inject label/icon into the caller's attribute object, resolve and
validate the timestamp, resolve the sender, register the trace when the
fully-qualified key is not cached (adding it to the cache only on success),
then submit the event. `regResp` and `evtResp` are the transport oracle for
the registration and submission requests. -/
def logTraceEventInner (cfg : Defaults) (nowMs : Int) (cache : Finset String)
    (regResp evtResp : TransportResult) (p : LogParams) : InnerResult :=
  let fqKey := applyTraceSuffix cfg p.traceKey
  let attrs := injectAttrs p.eventAttributes p.eventTypeLabel p.eventTypeIcon
  let ts := effectiveTimestamp cfg nowMs p
  if tsOutOfRange ts then
    { result := Except.error (HlError.validationTimestampOutOfRange ts),
      cache := cache, calls := [], callerAttrs := attrs }
  else
    match effectiveSender p.eventSender cfg.sender with
    | none =>
      { result := Except.error HlError.validationSenderRequired,
        cache := cache, calls := [], callerAttrs := attrs }
    | some sender =>
      let payload : EventPayload :=
        { traceKey := fqKey, eventTypeKey := p.eventType,
          eventString := p.eventString, eventAttributes := attrs,
          eventSender := sender, eventTimestampUtc := ts,
          eventUniquer := p.eventUniquer }
      if fqKey ∈ cache then
        submitEvent evtResp cache [] payload attrs
      else
        let regPayload : RegisterPayload :=
          { traceKey := fqKey, traceType := (cfg.traceType).getD "TRACE",
            traceString := fqKey }
        match regResp with
        | TransportResult.netFail msg =>
          { result := Except.error (HlError.registrationFailed (registerCatchMessage msg)),
            cache := cache, calls := [NetCall.registerTrace regPayload],
            callerAttrs := attrs }
        | TransportResult.ok status body =>
          if 400 ≤ status then
            { result := Except.error (HlError.registrationFailed
                ("registerTrace err: " ++ registerErrorDetails body status)),
              cache := cache, calls := [NetCall.registerTrace regPayload],
              callerAttrs := attrs }
          else
            submitEvent evtResp (insert fqKey cache)
              [NetCall.registerTrace regPayload] payload attrs

/-- Observable result of a full `logTraceEvent` call. -/
structure LogResult where
  outcome : RouteOutcome
  cache : Finset String
  calls : List NetCall
  callerAttrs : AttrMap
deriving DecidableEq

/-- Full `logTraceEvent` (source lines 201-324): run the body, then route an
error through the outer catch block. -/
def logTraceEvent (cfg : Defaults) (nowMs : Int) (cache : Finset String)
    (regResp evtResp : TransportResult) (p : LogParams) : LogResult :=
  let i := logTraceEventInner cfg nowMs cache regResp evtResp p
  { outcome :=
      match i.result with
      | Except.ok b => RouteOutcome.ok b
      | Except.error e => routeError p.onError cfg.onError e,
    cache := i.cache, calls := i.calls, callerAttrs := i.callerAttrs }

/-- Model of JS `toUpperCase` on the trace keys (source line 352): uppercase
each character. -/
def jsToUpperCase (s : String) : String := String.mk (s.data.map Char.toUpper)

/-- Lines 366-374: message for a rejected deletion response. -/
def deleteStatusMessage (body : RespBody) (status : Nat) : String :=
  match body.errorField with
  | some e => "deleteTrace err: " ++ e
  | none =>
    "deleteTrace err: "
      ++ (if body.isTruthy then body.rendered else httpStatusDetail status)

/-- Result of the body of `deleteTrace` before the outer catch block. -/
structure DeleteInnerResult where
  result : Except HlError RespBody
  cache : Finset String
  calls : List NetCall
deriving DecidableEq

/-- The body of `deleteTrace` (source lines 342-388): require a truthy API
key and trace key, suffix and upper-case the key, issue the deletion
request, and on success evict the upper-cased key from the cache. -/
def deleteTraceInner (cfg : Defaults) (apiKey : Option String)
    (cache : Finset String) (delResp : TransportResult)
    (traceKey : String) : DeleteInnerResult :=
  if strTruthy apiKey = false then
    { result := Except.error HlError.configurationApiKeyRequired,
      cache := cache, calls := [] }
  else if traceKey = "" then
    { result := Except.error HlError.validationTraceKeyRequired,
      cache := cache, calls := [] }
  else
    let fqKey := applyTraceSuffix cfg traceKey
    let normalizedTraceKey := jsToUpperCase fqKey
    let payload : DeletePayload :=
      { apiKey := apiKey.getD "", traceKey := normalizedTraceKey }
    let calls := [NetCall.deleteTraceReq payload]
    match delResp with
    | TransportResult.netFail msg =>
      { result := Except.error (HlError.deletionFailed ("deleteTrace err: " ++ msg)),
        cache := cache, calls := calls }
    | TransportResult.ok status body =>
      if 400 ≤ status then
        { result := Except.error (HlError.deletionFailed
            ("deleteTrace err: " ++ deleteStatusMessage body status)),
          cache := cache, calls := calls }
      else
        { result := Except.ok body,
          cache := if normalizedTraceKey ∈ cache
                   then cache.erase normalizedTraceKey else cache,
          calls := calls }

/-- Observable result of a full `deleteTrace` call. -/
structure DeleteResult where
  outcome : RouteOutcome
  cache : Finset String
  calls : List NetCall
deriving DecidableEq

/-- Full `deleteTrace` (source lines 335-398): run the body, then route an
error through the outer catch block. -/
def deleteTrace (cfg : Defaults) (apiKey : Option String)
    (cache : Finset String) (delResp : TransportResult)
    (traceKey : String) (perCallHandler : Bool) : DeleteResult :=
  let i := deleteTraceInner cfg apiKey cache delResp traceKey
  { outcome :=
      match i.result with
      | Except.ok b => RouteOutcome.ok b
      | Except.error e => routeError perCallHandler cfg.onError e,
    cache := i.cache, calls := i.calls }

/-- Recognizer for registration requests. -/
def isRegisterCall : NetCall → Bool
  | NetCall.registerTrace _ => true
  | _ => false

/-- Recognizer for event-submission requests. -/
def isPostEventCall : NetCall → Bool
  | NetCall.postEvent _ => true
  | _ => false

/-- Number of registration requests in a call trace. -/
def registerCallCount (calls : List NetCall) : Nat :=
  (calls.filter isRegisterCall).length

/-- Number of event-submission requests in a call trace. -/
def postEventCallCount (calls : List NetCall) : Nat :=
  (calls.filter isPostEventCall).length

/-- The event payload `logTraceEvent` builds once validation passed. -/
def canonicalEventPayload (cfg : Defaults) (nowMs : Int) (p : LogParams)
    (sender : String) : EventPayload :=
  { traceKey := applyTraceSuffix cfg p.traceKey, eventTypeKey := p.eventType,
    eventString := p.eventString,
    eventAttributes := injectAttrs p.eventAttributes p.eventTypeLabel p.eventTypeIcon,
    eventSender := sender, eventTimestampUtc := effectiveTimestamp cfg nowMs p,
    eventUniquer := p.eventUniquer }

/-- The registration payload `logTraceEvent` builds for an uncached key. -/
def canonicalRegisterPayload (cfg : Defaults) (p : LogParams) : RegisterPayload :=
  { traceKey := applyTraceSuffix cfg p.traceKey,
    traceType := (cfg.traceType).getD "TRACE",
    traceString := applyTraceSuffix cfg p.traceKey }

lemma tsOutOfRange_iff (ts : Int) :
    tsOutOfRange ts = true ↔ (ts < lowerTsBoundMs ∨ upperTsBoundMs < ts) := by
  simp only [tsOutOfRange, Bool.or_eq_true, decide_eq_true_eq]
  constructor
  · intro h; exact h.elim (fun h2 => Or.inr h2) (fun h2 => Or.inl h2)
  · intro h; exact h.elim (fun h2 => Or.inr h2) (fun h2 => Or.inl h2)

lemma submitEvent_calls (evtResp : TransportResult) (cache : Finset String)
    (callsSoFar : List NetCall) (payload : EventPayload) (attrs : AttrMap) :
    (submitEvent evtResp cache callsSoFar payload attrs).calls
      = callsSoFar ++ [NetCall.postEvent payload] := by
  cases evtResp with
  | netFail m => rfl
  | ok status body =>
    by_cases h : 400 ≤ status <;> simp [submitEvent, h]

lemma submitEvent_cache (evtResp : TransportResult) (cache : Finset String)
    (callsSoFar : List NetCall) (payload : EventPayload) (attrs : AttrMap) :
    (submitEvent evtResp cache callsSoFar payload attrs).cache = cache := by
  cases evtResp with
  | netFail m => rfl
  | ok status body =>
    by_cases h : 400 ≤ status <;> simp [submitEvent, h]

lemma submitEvent_callerAttrs (evtResp : TransportResult) (cache : Finset String)
    (callsSoFar : List NetCall) (payload : EventPayload) (attrs : AttrMap) :
    (submitEvent evtResp cache callsSoFar payload attrs).callerAttrs = attrs := by
  cases evtResp with
  | netFail m => rfl
  | ok status body =>
    by_cases h : 400 ≤ status <;> simp [submitEvent, h]

lemma inner_ts_invalid (cfg : Defaults) (nowMs : Int) (cache : Finset String)
    (rr er : TransportResult) (p : LogParams)
    (h : tsOutOfRange (effectiveTimestamp cfg nowMs p) = true) :
    logTraceEventInner cfg nowMs cache rr er p
      = { result := Except.error
            (HlError.validationTimestampOutOfRange (effectiveTimestamp cfg nowMs p)),
          cache := cache, calls := [],
          callerAttrs := injectAttrs p.eventAttributes p.eventTypeLabel p.eventTypeIcon } := by
  simp [logTraceEventInner, h]

lemma inner_sender_none (cfg : Defaults) (nowMs : Int) (cache : Finset String)
    (rr er : TransportResult) (p : LogParams)
    (hts : tsOutOfRange (effectiveTimestamp cfg nowMs p) = false)
    (hs : effectiveSender p.eventSender cfg.sender = none) :
    logTraceEventInner cfg nowMs cache rr er p
      = { result := Except.error HlError.validationSenderRequired,
          cache := cache, calls := [],
          callerAttrs := injectAttrs p.eventAttributes p.eventTypeLabel p.eventTypeIcon } := by
  simp [logTraceEventInner, hts, hs]

lemma inner_cached (cfg : Defaults) (nowMs : Int) (cache : Finset String)
    (rr er : TransportResult) (p : LogParams) (sender : String)
    (hts : tsOutOfRange (effectiveTimestamp cfg nowMs p) = false)
    (hs : effectiveSender p.eventSender cfg.sender = some sender)
    (hmem : applyTraceSuffix cfg p.traceKey ∈ cache) :
    logTraceEventInner cfg nowMs cache rr er p
      = submitEvent er cache [] (canonicalEventPayload cfg nowMs p sender)
          (injectAttrs p.eventAttributes p.eventTypeLabel p.eventTypeIcon) := by
  simp [logTraceEventInner, hts, hs, hmem, canonicalEventPayload]

lemma inner_register_netfail (cfg : Defaults) (nowMs : Int) (cache : Finset String)
    (msg : String) (er : TransportResult) (p : LogParams) (sender : String)
    (hts : tsOutOfRange (effectiveTimestamp cfg nowMs p) = false)
    (hs : effectiveSender p.eventSender cfg.sender = some sender)
    (hmem : applyTraceSuffix cfg p.traceKey ∉ cache) :
    logTraceEventInner cfg nowMs cache (TransportResult.netFail msg) er p
      = { result := Except.error (HlError.registrationFailed (registerCatchMessage msg)),
          cache := cache,
          calls := [NetCall.registerTrace (canonicalRegisterPayload cfg p)],
          callerAttrs := injectAttrs p.eventAttributes p.eventTypeLabel p.eventTypeIcon } := by
  simp [logTraceEventInner, hts, hs, hmem, canonicalRegisterPayload]

lemma inner_register_status_fail (cfg : Defaults) (nowMs : Int)
    (cache : Finset String) (status : Nat) (body : RespBody)
    (er : TransportResult) (p : LogParams) (sender : String)
    (hts : tsOutOfRange (effectiveTimestamp cfg nowMs p) = false)
    (hs : effectiveSender p.eventSender cfg.sender = some sender)
    (hmem : applyTraceSuffix cfg p.traceKey ∉ cache)
    (hst : 400 ≤ status) :
    logTraceEventInner cfg nowMs cache (TransportResult.ok status body) er p
      = { result := Except.error (HlError.registrationFailed
            ("registerTrace err: " ++ registerErrorDetails body status)),
          cache := cache,
          calls := [NetCall.registerTrace (canonicalRegisterPayload cfg p)],
          callerAttrs := injectAttrs p.eventAttributes p.eventTypeLabel p.eventTypeIcon } := by
  simp [logTraceEventInner, hts, hs, hmem, hst, canonicalRegisterPayload]

lemma inner_register_ok (cfg : Defaults) (nowMs : Int) (cache : Finset String)
    (status : Nat) (body : RespBody) (er : TransportResult) (p : LogParams)
    (sender : String)
    (hts : tsOutOfRange (effectiveTimestamp cfg nowMs p) = false)
    (hs : effectiveSender p.eventSender cfg.sender = some sender)
    (hmem : applyTraceSuffix cfg p.traceKey ∉ cache)
    (hst : status < 400) :
    logTraceEventInner cfg nowMs cache (TransportResult.ok status body) er p
      = submitEvent er (insert (applyTraceSuffix cfg p.traceKey) cache)
          [NetCall.registerTrace (canonicalRegisterPayload cfg p)]
          (canonicalEventPayload cfg nowMs p sender)
          (injectAttrs p.eventAttributes p.eventTypeLabel p.eventTypeIcon) := by
  have h2 : ¬ 400 ≤ status := by omega
  simp [logTraceEventInner, hts, hs, hmem, h2, canonicalRegisterPayload,
    canonicalEventPayload]

lemma logTraceEvent_calls (cfg : Defaults) (nowMs : Int) (cache : Finset String)
    (rr er : TransportResult) (p : LogParams) :
    (logTraceEvent cfg nowMs cache rr er p).calls
      = (logTraceEventInner cfg nowMs cache rr er p).calls := rfl

lemma logTraceEvent_cache (cfg : Defaults) (nowMs : Int) (cache : Finset String)
    (rr er : TransportResult) (p : LogParams) :
    (logTraceEvent cfg nowMs cache rr er p).cache
      = (logTraceEventInner cfg nowMs cache rr er p).cache := rfl

lemma logTraceEvent_callerAttrs (cfg : Defaults) (nowMs : Int)
    (cache : Finset String) (rr er : TransportResult) (p : LogParams) :
    (logTraceEvent cfg nowMs cache rr er p).callerAttrs
      = (logTraceEventInner cfg nowMs cache rr er p).callerAttrs := rfl

lemma logTraceEvent_outcome_error (cfg : Defaults) (nowMs : Int)
    (cache : Finset String) (rr er : TransportResult) (p : LogParams)
    (e : HlError)
    (h : (logTraceEventInner cfg nowMs cache rr er p).result = Except.error e) :
    (logTraceEvent cfg nowMs cache rr er p).outcome
      = routeError p.onError cfg.onError e := by
  simp [logTraceEvent, h]

lemma deleteTrace_outcome_error (cfg : Defaults) (apiKey : Option String)
    (cache : Finset String) (dr : TransportResult) (tk : String) (pc : Bool)
    (e : HlError)
    (h : (deleteTraceInner cfg apiKey cache dr tk).result = Except.error e) :
    (deleteTrace cfg apiKey cache dr tk pc).outcome
      = routeError pc cfg.onError e := by
  simp [deleteTrace, h]

lemma lookupAttr_setKey_same (m : AttrMap) (k : String) (v : JsVal) :
    lookupAttr (setKey m k v) k = some v := by
  induction m with
  | nil => simp [setKey, lookupAttr]
  | cons kv rest ih =>
    by_cases h : kv.1 = k
    · simp [setKey, h, lookupAttr]
    · simp [setKey, h, lookupAttr, ih]

lemma lookupAttr_setKey_ne (m : AttrMap) (k k2 : String) (v : JsVal)
    (h : k ≠ k2) :
    lookupAttr (setKey m k v) k2 = lookupAttr m k2 := by
  induction m with
  | nil => simp [setKey, lookupAttr, h]
  | cons kv rest ih =>
    by_cases hk : kv.1 = k
    · simp [setKey, hk, lookupAttr, h]
    · simp [setKey, hk, lookupAttr, ih]

lemma injectAttrs_lookups (attrs : AttrMap) (l i : String)
    (hl : l ≠ "") (hi : i ≠ "") :
    lookupAttr (injectAttrs attrs (some l) (some i)) "eventTypeLabel"
        = some (JsVal.str l)
    ∧ lookupAttr (injectAttrs attrs (some l) (some i)) "eventTypeIcon"
        = some (JsVal.str i) := by
  unfold injectAttrs
  simp [hl, hi]
  constructor
  · rw [lookupAttr_setKey_ne _ _ _ _ (by decide)]
    exact lookupAttr_setKey_same attrs "eventTypeLabel" (JsVal.str l)
  · exact lookupAttr_setKey_same _ "eventTypeIcon" (JsVal.str i)

lemma map_toUpper_eq_self {l : List Char} (h : l.map Char.toUpper = l) :
    ∀ c ∈ l, Char.toUpper c = c := by
  induction l with
  | nil => simp
  | cons a t ih =>
    rw [List.map_cons, List.cons.injEq] at h
    intro c hc
    rcases List.mem_cons.mp hc with hce | hct
    · rw [hce]; exact h.1
    · exact ih h.2 c hct

lemma jsToUpperCase_data (s : String) :
    (jsToUpperCase s).data = s.data.map Char.toUpper := rfl

lemma ne_jsToUpperCase_of_changed_char (s : String)
    (h : ∃ c ∈ s.data, Char.toUpper c ≠ c) : s ≠ jsToUpperCase s := by
  obtain ⟨c, hc, hne⟩ := h
  intro heq
  have hdata : s.data.map Char.toUpper = s.data := by
    rw [← jsToUpperCase_data, ← heq]
  exact hne (map_toUpper_eq_self hdata c hc)

/-- Concrete configuration used by the witnesses: a default sender, no type,
no custom timestamp source, no client-wide handler, no suffix. -/
def cfg0 : Defaults :=
  { sender := some "svc", traceType := none, eventTimestampFuncVal := none,
    onError := false, traceSuffix := none }

/-- Configuration with no default sender. -/
def cfgNoSender : Defaults :=
  { sender := none, traceType := none, eventTimestampFuncVal := none,
    onError := false, traceSuffix := none }

/-- Configuration with a client-wide error handler. -/
def cfgHandler : Defaults :=
  { sender := some "svc", traceType := none, eventTimestampFuncVal := none,
    onError := true, traceSuffix := none }

/-- A plain successful response body. -/
def body200 : RespBody := { errorField := none, rendered := "ok", isTruthy := true }

/-- A 200 response carrying `body200`. -/
def okResp : TransportResult := TransportResult.ok 200 body200

/-- Valid baseline parameters: in-range explicit timestamp, sender taken
from the configuration default. -/
def p0 : LogParams :=
  { traceKey := "trace1", eventType := "NOTE", eventString := none,
    eventSender := none, eventAttributes := [],
    eventTimestampUtc := some 1665000000000, eventUniquer := none,
    eventTypeLabel := none, eventTypeIcon := none, onError := false }

/-- Parameters with the spec's example out-of-range timestamp. -/
def pZeroTs : LogParams := { p0 with eventTimestampUtc := some 1000000000000 }

/-- Parameters at the failing lower boundary. -/
def pLowFail : LogParams := { p0 with eventTimestampUtc := some 1664999999999 }

/-- Out-of-range parameters carrying a per-call error handler. -/
def pPerCallHandler : LogParams := { pZeroTs with onError := true }

/-- Valid parameters with explicit label and icon overrides. -/
def pLabeled : LogParams :=
  { p0 with eventTypeLabel := some "Alert", eventTypeIcon := some "target" }

/-- C4: a resolved timestamp strictly below 1,665,000,000,000 or strictly
above 2,565,000,000,000 makes `logTraceEvent` fail with the timestamp
`ValidationError` and issue no network call; the boundary value
1,664,999,999,999 fails while 1,665,000,000,000 passes (the call proceeds
all the way to a successful submission). -/
theorem c4_timestamp_window :
    (∀ (cfg : Defaults) (nowMs : Int) (cache : Finset String)
        (regResp evtResp : TransportResult) (p : LogParams),
      (effectiveTimestamp cfg nowMs p < lowerTsBoundMs
        ∨ upperTsBoundMs < effectiveTimestamp cfg nowMs p) →
      (logTraceEventInner cfg nowMs cache regResp evtResp p).result
          = Except.error
              (HlError.validationTimestampOutOfRange (effectiveTimestamp cfg nowMs p))
        ∧ (logTraceEventInner cfg nowMs cache regResp evtResp p).calls = [])
    ∧ (logTraceEventInner cfg0 0 ∅ okResp okResp pLowFail).result
        = Except.error (HlError.validationTimestampOutOfRange 1664999999999)
    ∧ (logTraceEventInner cfg0 0 ∅ okResp okResp pLowFail).calls = []
    ∧ (logTraceEventInner cfg0 0 ∅ okResp okResp p0).result = Except.ok body200 := by
  refine ⟨?_, ?_, ?_, ?_⟩
  · intro cfg nowMs cache rr er p h
    have hts : tsOutOfRange (effectiveTimestamp cfg nowMs p) = true :=
      (tsOutOfRange_iff (effectiveTimestamp cfg nowMs p)).mpr h
    rw [inner_ts_invalid cfg nowMs cache rr er p hts]
    exact ⟨rfl, rfl⟩
  · decide
  · decide
  · decide

/-- Witness for C4 at the spec's example input `eventTimestampUtc =
1,000,000,000,000`: the call fails with the timestamp error and issues no
network call. -/
theorem c4_timestamp_window_witness :
    (logTraceEventInner cfg0 0 ∅ okResp okResp pZeroTs).result
        = Except.error (HlError.validationTimestampOutOfRange 1000000000000)
    ∧ (logTraceEventInner cfg0 0 ∅ okResp okResp pZeroTs).calls = [] := by
  have h := c4_timestamp_window.1 cfg0 0 ∅ okResp okResp pZeroTs
    (Or.inl (by decide))
  exact ⟨h.1, h.2⟩

/-- The literal form of C8: the effective sender is the explicit parameter
whenever one is provided (even an empty string), else the configured
default; when both resolve to nothing the call fails with the
sender-required `ValidationError` and no network call. -/
def c8Statement : Prop :=
  (∀ (s : String) (dflt : Option String), effectiveSender (some s) dflt = some s)
  ∧ (∀ dflt : Option String, effectiveSender none dflt = dflt)
  ∧ (∀ (cfg : Defaults) (nowMs : Int) (cache : Finset String)
      (rr er : TransportResult) (p : LogParams),
      effectiveSender p.eventSender cfg.sender = none →
      tsOutOfRange (effectiveTimestamp cfg nowMs p) = false →
      (logTraceEventInner cfg nowMs cache rr er p).result
          = Except.error HlError.validationSenderRequired
        ∧ (logTraceEventInner cfg nowMs cache rr er p).calls = [])

/-- C8 counterexample: an explicit but empty `eventSender` is provided, yet
the JS `||` fallback makes the effective sender the configured default
(`"svc"`), not the provided empty string. -/
theorem c8_counterexample : ¬ c8Statement := by
  intro h
  exact absurd (h.1 "" (some "svc")) (by decide)

/-- C8 (amended): the effective sender is the explicit `eventSender`
parameter when a non-empty one is provided; an absent or empty explicit
sender falls back to the configured default; when the resolution yields
nothing the call fails with the sender-required `ValidationError` before any
network call. -/
theorem c8_sender_resolution :
    (∀ (s : String) (dflt : Option String), s ≠ "" →
      effectiveSender (some s) dflt = some s)
    ∧ (∀ dflt : Option String, effectiveSender none dflt = dflt)
    ∧ (∀ dflt : Option String, effectiveSender (some "") dflt = dflt)
    ∧ (∀ (cfg : Defaults) (nowMs : Int) (cache : Finset String)
        (rr er : TransportResult) (p : LogParams),
        effectiveSender p.eventSender cfg.sender = none →
        tsOutOfRange (effectiveTimestamp cfg nowMs p) = false →
        (logTraceEventInner cfg nowMs cache rr er p).result
            = Except.error HlError.validationSenderRequired
          ∧ (logTraceEventInner cfg nowMs cache rr er p).calls = []) := by
  refine ⟨?_, ?_, ?_, ?_⟩
  · intro s dflt hs
    simp [effectiveSender, hs]
  · intro dflt
    simp [effectiveSender]
  · intro dflt
    simp [effectiveSender]
  · intro cfg nowMs cache rr er p hsen hts
    rw [inner_sender_none cfg nowMs cache rr er p hts hsen]
    exact ⟨rfl, rfl⟩

/-- Witness for C8 at concrete inputs: a non-empty explicit sender wins, and
with no explicit sender and no configured default the call fails with the
sender-required error and no network call. -/
theorem c8_sender_resolution_witness :
    effectiveSender (some "bob") none = some "bob"
    ∧ (logTraceEventInner cfgNoSender 0 ∅ okResp okResp p0).result
        = Except.error HlError.validationSenderRequired
    ∧ (logTraceEventInner cfgNoSender 0 ∅ okResp okResp p0).calls = [] := by
  have h1 := c8_sender_resolution.1 "bob" none (by decide)
  have h2 := c8_sender_resolution.2.2.2 cfgNoSender 0 ∅ okResp okResp p0
    (by decide) (by decide)
  exact ⟨h1, h2.1, h2.2⟩

/-- C5: every error raised inside `logTraceEvent` or `deleteTrace` is routed
with per-call-handler precedence: the per-call handler absorbs it when
supplied (even when a client-wide handler is also configured); otherwise the
client-wide handler absorbs it when configured; otherwise it is rethrown to
the caller. -/
theorem c5_error_handler_precedence :
    (∀ (cfg : Defaults) (nowMs : Int) (cache : Finset String)
        (rr er : TransportResult) (p : LogParams) (e : HlError),
      (logTraceEventInner cfg nowMs cache rr er p).result = Except.error e →
      ((p.onError = true →
          (logTraceEvent cfg nowMs cache rr er p).outcome
            = RouteOutcome.absorbedPerCall e)
        ∧ (p.onError = false → cfg.onError = true →
          (logTraceEvent cfg nowMs cache rr er p).outcome
            = RouteOutcome.absorbedClientWide e)
        ∧ (p.onError = false → cfg.onError = false →
          (logTraceEvent cfg nowMs cache rr er p).outcome
            = RouteOutcome.thrown e)))
    ∧ (∀ (cfg : Defaults) (apiKey : Option String) (cache : Finset String)
        (dr : TransportResult) (tk : String) (pc : Bool) (e : HlError),
      (deleteTraceInner cfg apiKey cache dr tk).result = Except.error e →
      ((pc = true →
          (deleteTrace cfg apiKey cache dr tk pc).outcome
            = RouteOutcome.absorbedPerCall e)
        ∧ (pc = false → cfg.onError = true →
          (deleteTrace cfg apiKey cache dr tk pc).outcome
            = RouteOutcome.absorbedClientWide e)
        ∧ (pc = false → cfg.onError = false →
          (deleteTrace cfg apiKey cache dr tk pc).outcome
            = RouteOutcome.thrown e))) := by
  constructor
  · intro cfg nowMs cache rr er p e h
    refine ⟨?_, ?_, ?_⟩
    · intro h1
      rw [logTraceEvent_outcome_error cfg nowMs cache rr er p e h]
      simp [routeError, h1]
    · intro h1 h2
      rw [logTraceEvent_outcome_error cfg nowMs cache rr er p e h]
      simp [routeError, h1, h2]
    · intro h1 h2
      rw [logTraceEvent_outcome_error cfg nowMs cache rr er p e h]
      simp [routeError, h1, h2]
  · intro cfg apiKey cache dr tk pc e h
    refine ⟨?_, ?_, ?_⟩
    · intro h1
      rw [deleteTrace_outcome_error cfg apiKey cache dr tk pc e h]
      simp [routeError, h1]
    · intro h1 h2
      rw [deleteTrace_outcome_error cfg apiKey cache dr tk pc e h]
      simp [routeError, h1, h2]
    · intro h1 h2
      rw [deleteTrace_outcome_error cfg apiKey cache dr tk pc e h]
      simp [routeError, h1, h2]

/-- Witness for C5: with both a per-call and a client-wide handler present,
an out-of-range timestamp error goes to the per-call handler; in
`deleteTrace` with no handler anywhere, a missing API key is rethrown. -/
theorem c5_error_handler_precedence_witness :
    (logTraceEvent cfgHandler 0 ∅ okResp okResp pPerCallHandler).outcome
        = RouteOutcome.absorbedPerCall
            (HlError.validationTimestampOutOfRange 1000000000000)
    ∧ (deleteTrace cfg0 none ∅ okResp "abc" false).outcome
        = RouteOutcome.thrown HlError.configurationApiKeyRequired := by
  have h1 := (c5_error_handler_precedence.1 cfgHandler 0 ∅ okResp okResp
    pPerCallHandler (HlError.validationTimestampOutOfRange 1000000000000)
    (by decide)).1 (by decide)
  have h2 := (c5_error_handler_precedence.2 cfg0 none ∅ okResp "abc" false
    HlError.configurationApiKeyRequired (by decide)).2.2 (by decide) (by decide)
  exact ⟨h1, h2⟩

/-- C10: whenever an error raised inside `logTraceEvent` or `deleteTrace`
is absorbed by a per-call or client-wide handler, the operation itself
resolves with `undefined` rather than a response body. -/
theorem c10_handled_errors_resolve_undefined :
    (∀ (cfg : Defaults) (nowMs : Int) (cache : Finset String)
        (rr er : TransportResult) (p : LogParams) (e : HlError),
      (logTraceEventInner cfg nowMs cache rr er p).result = Except.error e →
      (p.onError || cfg.onError) = true →
      RouteOutcome.settle (logTraceEvent cfg nowMs cache rr er p).outcome
        = JsSettle.resolved none)
    ∧ (∀ (cfg : Defaults) (apiKey : Option String) (cache : Finset String)
        (dr : TransportResult) (tk : String) (pc : Bool) (e : HlError),
      (deleteTraceInner cfg apiKey cache dr tk).result = Except.error e →
      (pc || cfg.onError) = true →
      RouteOutcome.settle (deleteTrace cfg apiKey cache dr tk pc).outcome
        = JsSettle.resolved none) := by
  constructor
  · intro cfg nowMs cache rr er p e h hb
    rw [logTraceEvent_outcome_error cfg nowMs cache rr er p e h]
    cases hp : p.onError with
    | true => simp [routeError, RouteOutcome.settle]
    | false =>
      rw [hp] at hb
      simp only [Bool.false_or] at hb
      simp [routeError, hb, RouteOutcome.settle]
  · intro cfg apiKey cache dr tk pc e h hb
    rw [deleteTrace_outcome_error cfg apiKey cache dr tk pc e h]
    cases hp : pc with
    | true => simp [routeError, RouteOutcome.settle]
    | false =>
      rw [hp] at hb
      simp only [Bool.false_or] at hb
      simp [routeError, hb, RouteOutcome.settle]

/-- Witness for C10: a per-call handler absorbs the timestamp error and the
call resolves with `undefined`. -/
theorem c10_handled_errors_resolve_undefined_witness :
    RouteOutcome.settle (logTraceEvent cfg0 0 ∅ okResp okResp pPerCallHandler).outcome
      = JsSettle.resolved none :=
  c10_handled_errors_resolve_undefined.1 cfg0 0 ∅ okResp okResp
    pPerCallHandler (HlError.validationTimestampOutOfRange 1000000000000)
    (by decide) (by decide)

/-- C6: a successful `deleteTrace` removes exactly the upper-cased
fully-qualified key from the registration cache; a cached original-case key
containing any character changed by upper-casing therefore survives the
deletion. -/
theorem c6_delete_evicts_uppercased (cfg : Defaults) (k : String)
    (cache : Finset String) (status : Nat) (body : RespBody)
    (traceKey : String) (pc : Bool)
    (hk : k ≠ "") (htk : traceKey ≠ "") (hst : status < 400) :
    (deleteTrace cfg (some k) cache (TransportResult.ok status body) traceKey pc).outcome
        = RouteOutcome.ok body
    ∧ (deleteTrace cfg (some k) cache (TransportResult.ok status body) traceKey pc).cache
        = cache.erase (jsToUpperCase (applyTraceSuffix cfg traceKey))
    ∧ ((∃ c ∈ (applyTraceSuffix cfg traceKey).data, Char.toUpper c ≠ c) →
        applyTraceSuffix cfg traceKey ∈ cache →
        applyTraceSuffix cfg traceKey ∈
          (deleteTrace cfg (some k) cache (TransportResult.ok status body) traceKey pc).cache) := by
  have hlt : ¬ 400 ≤ status := by omega
  have hres : (deleteTraceInner cfg (some k) cache
      (TransportResult.ok status body) traceKey).result = Except.ok body := by
    simp [deleteTraceInner, strTruthy, hk, htk, hlt]
  have hcache : (deleteTraceInner cfg (some k) cache
      (TransportResult.ok status body) traceKey).cache
      = cache.erase (jsToUpperCase (applyTraceSuffix cfg traceKey)) := by
    by_cases hmem : jsToUpperCase (applyTraceSuffix cfg traceKey) ∈ cache
    · simp [deleteTraceInner, strTruthy, hk, htk, hlt, hmem]
    · simp [deleteTraceInner, strTruthy, hk, htk, hlt, hmem,
        Finset.erase_eq_of_not_mem hmem]
  have hdc : (deleteTrace cfg (some k) cache
      (TransportResult.ok status body) traceKey pc).cache
      = (deleteTraceInner cfg (some k) cache
          (TransportResult.ok status body) traceKey).cache := rfl
  refine ⟨?_, ?_, ?_⟩
  · simp [deleteTrace, hres]
  · rw [hdc, hcache]
  · intro hch hmem2
    have hne := ne_jsToUpperCase_of_changed_char (applyTraceSuffix cfg traceKey) hch
    rw [hdc, hcache]
    exact Finset.mem_erase.mpr ⟨hne, hmem2⟩

/-- Witness for C6: deleting `"abc"` with key `"abc"` cached evicts only
`"ABC"`, so the cached `"abc"` survives. -/
theorem c6_delete_evicts_uppercased_witness :
    (deleteTrace cfg0 (some "key") {"abc"} (TransportResult.ok 200 body200)
        "abc" false).outcome = RouteOutcome.ok body200
    ∧ "abc" ∈ (deleteTrace cfg0 (some "key") {"abc"}
        (TransportResult.ok 200 body200) "abc" false).cache := by
  have h := c6_delete_evicts_uppercased cfg0 "key" {"abc"} 200 body200
    "abc" false (by decide) (by decide) (by decide)
  exact ⟨h.1, h.2.2 (by decide) (by decide)⟩

lemma postEvent_mem_canonical (cfg : Defaults) (nowMs : Int)
    (cache : Finset String) (rr er : TransportResult) (p : LogParams)
    (payload : EventPayload)
    (h : NetCall.postEvent payload ∈ (logTraceEventInner cfg nowMs cache rr er p).calls) :
    ∃ sender, effectiveSender p.eventSender cfg.sender = some sender
      ∧ payload = canonicalEventPayload cfg nowMs p sender := by
  cases hts : tsOutOfRange (effectiveTimestamp cfg nowMs p) with
  | true =>
    rw [inner_ts_invalid cfg nowMs cache rr er p hts] at h
    simp at h
  | false =>
    cases hsen : effectiveSender p.eventSender cfg.sender with
    | none =>
      rw [inner_sender_none cfg nowMs cache rr er p hts hsen] at h
      simp at h
    | some sender =>
      refine ⟨sender, rfl, ?_⟩
      by_cases hmem : applyTraceSuffix cfg p.traceKey ∈ cache
      · rw [inner_cached cfg nowMs cache rr er p sender hts hsen hmem,
          submitEvent_calls] at h
        simpa using h
      · cases rr with
        | netFail m =>
          rw [inner_register_netfail cfg nowMs cache m er p sender hts hsen hmem] at h
          simp at h
        | ok status body =>
          by_cases hst : 400 ≤ status
          · rw [inner_register_status_fail cfg nowMs cache status body er p
              sender hts hsen hmem hst] at h
            simp at h
          · rw [inner_register_ok cfg nowMs cache status body er p sender
              hts hsen hmem (by omega), submitEvent_calls] at h
            simpa using h

lemma inner_callerAttrs (cfg : Defaults) (nowMs : Int) (cache : Finset String)
    (rr er : TransportResult) (p : LogParams) :
    (logTraceEventInner cfg nowMs cache rr er p).callerAttrs
      = injectAttrs p.eventAttributes p.eventTypeLabel p.eventTypeIcon := by
  cases hts : tsOutOfRange (effectiveTimestamp cfg nowMs p) with
  | true => rw [inner_ts_invalid cfg nowMs cache rr er p hts]
  | false =>
    cases hsen : effectiveSender p.eventSender cfg.sender with
    | none => rw [inner_sender_none cfg nowMs cache rr er p hts hsen]
    | some sender =>
      by_cases hmem : applyTraceSuffix cfg p.traceKey ∈ cache
      · rw [inner_cached cfg nowMs cache rr er p sender hts hsen hmem,
          submitEvent_callerAttrs]
      · cases rr with
        | netFail m =>
          rw [inner_register_netfail cfg nowMs cache m er p sender hts hsen hmem]
        | ok status body =>
          by_cases hst : 400 ≤ status
          · rw [inner_register_status_fail cfg nowMs cache status body er p
              sender hts hsen hmem hst]
          · rw [inner_register_ok cfg nowMs cache status body er p sender
              hts hsen hmem (by omega), submitEvent_callerAttrs]

/-- The literal form of C7: with label and icon overrides supplied, every
submitted attribute mapping contains the two values verbatim AND the
caller's original `eventAttributes` object is left unmodified. -/
def c7Statement : Prop :=
  ∀ (cfg : Defaults) (nowMs : Int) (cache : Finset String)
    (rr er : TransportResult) (p : LogParams) (l i : String),
    p.eventTypeLabel = some l → l ≠ "" → p.eventTypeIcon = some i → i ≠ "" →
    (∀ payload : EventPayload,
      NetCall.postEvent payload ∈ (logTraceEvent cfg nowMs cache rr er p).calls →
      lookupAttr payload.eventAttributes "eventTypeLabel" = some (JsVal.str l)
      ∧ lookupAttr payload.eventAttributes "eventTypeIcon" = some (JsVal.str i))
    ∧ (logTraceEvent cfg nowMs cache rr er p).callerAttrs = p.eventAttributes

/-- C7 counterexample: lines 226-227 assign the label and icon into the
caller's `eventAttributes` object itself, so after a call with overrides the
caller's (initially empty) object holds the two injected entries — no
defensive copy is made. -/
theorem c7_counterexample : ¬ c7Statement := by
  intro h
  have h2 := (h cfg0 0 ∅ okResp okResp pLabeled "Alert" "target" rfl
    (by decide) rfl (by decide)).2
  exact absurd h2 (by decide)

/-- C7 (amended): with non-empty label and icon overrides supplied, every
submitted attribute mapping contains the two values verbatim, but the
caller's original `eventAttributes` object is mutated in place to the
injected mapping (it now contains those two entries itself); no defensive
copy is made. -/
theorem c7_label_icon_injection (cfg : Defaults) (nowMs : Int)
    (cache : Finset String) (rr er : TransportResult) (p : LogParams)
    (l i : String)
    (hl : p.eventTypeLabel = some l) (hl2 : l ≠ "")
    (hi : p.eventTypeIcon = some i) (hi2 : i ≠ "") :
    (∀ payload : EventPayload,
      NetCall.postEvent payload ∈ (logTraceEvent cfg nowMs cache rr er p).calls →
      lookupAttr payload.eventAttributes "eventTypeLabel" = some (JsVal.str l)
      ∧ lookupAttr payload.eventAttributes "eventTypeIcon" = some (JsVal.str i))
    ∧ (logTraceEvent cfg nowMs cache rr er p).callerAttrs
        = injectAttrs p.eventAttributes p.eventTypeLabel p.eventTypeIcon
    ∧ lookupAttr (logTraceEvent cfg nowMs cache rr er p).callerAttrs
        "eventTypeLabel" = some (JsVal.str l)
    ∧ lookupAttr (logTraceEvent cfg nowMs cache rr er p).callerAttrs
        "eventTypeIcon" = some (JsVal.str i) := by
  have hca : (logTraceEvent cfg nowMs cache rr er p).callerAttrs
      = injectAttrs p.eventAttributes p.eventTypeLabel p.eventTypeIcon := by
    rw [logTraceEvent_callerAttrs, inner_callerAttrs]
  have hlook := injectAttrs_lookups p.eventAttributes l i hl2 hi2
  refine ⟨?_, hca, ?_, ?_⟩
  · intro payload hmem
    rw [logTraceEvent_calls] at hmem
    obtain ⟨sender, hs, hp⟩ :=
      postEvent_mem_canonical cfg nowMs cache rr er p payload hmem
    rw [hp]
    simp only [canonicalEventPayload]
    rw [hl, hi]
    exact ⟨hlook.1, hlook.2⟩
  · rw [hca, hl, hi]
    exact hlook.1
  · rw [hca, hl, hi]
    exact hlook.2

/-- Witness for C7 at a concrete call: the caller's initially empty
attribute object ends up containing the injected label and icon. -/
theorem c7_label_icon_injection_witness :
    lookupAttr (logTraceEvent cfg0 0 ∅ okResp okResp pLabeled).callerAttrs
        "eventTypeLabel" = some (JsVal.str "Alert")
    ∧ lookupAttr (logTraceEvent cfg0 0 ∅ okResp okResp pLabeled).callerAttrs
        "eventTypeIcon" = some (JsVal.str "target") := by
  have h := c7_label_icon_injection cfg0 0 ∅ okResp okResp pLabeled
    "Alert" "target" rfl (by decide) rfl (by decide)
  exact ⟨h.2.2.1, h.2.2.2⟩

/-- The literal form of C3's first half: two sequential calls that share a
fully-qualified key, the first of which registered the key successfully
(observable as: the key was not cached before and is cached after), issue
exactly one registration call and two event-submission calls in total. -/
def c3PairStatement : Prop :=
  ∀ (cfg : Defaults) (now1 now2 : Int) (cache : Finset String)
    (rr1 er1 rr2 er2 : TransportResult) (p1 p2 : LogParams),
    applyTraceSuffix cfg p1.traceKey = applyTraceSuffix cfg p2.traceKey →
    applyTraceSuffix cfg p1.traceKey ∉ cache →
    applyTraceSuffix cfg p1.traceKey ∈ (logTraceEvent cfg now1 cache rr1 er1 p1).cache →
    registerCallCount ((logTraceEvent cfg now1 cache rr1 er1 p1).calls
        ++ (logTraceEvent cfg now2 (logTraceEvent cfg now1 cache rr1 er1 p1).cache
              rr2 er2 p2).calls) = 1
    ∧ postEventCallCount ((logTraceEvent cfg now1 cache rr1 er1 p1).calls
        ++ (logTraceEvent cfg now2 (logTraceEvent cfg now1 cache rr1 er1 p1).cache
              rr2 er2 p2).calls) = 2

/-- C3 counterexample: when the second call fails timestamp validation it
issues no network call at all, so the pair issues one registration call but
only one event-submission call. -/
theorem c3_counterexample : ¬ c3PairStatement := by
  intro h
  have h2 := h cfg0 0 0 ∅ okResp okResp okResp okResp p0 pZeroTs rfl
    (by decide) (by decide)
  exact absurd h2.2 (by decide)

/-- C3 (amended): (a) two sequential calls sharing a fully-qualified key,
where the first call's registration response succeeds and both calls pass
input validation, issue exactly one registration call and two
event-submission calls; (b) a call whose registration fails (non-success
status or transport failure) raises a `RegistrationError`, leaves the cache
unchanged (the key is not added) and submits no event; (c) any call for an
uncached key that passes validation issues a registration call, so the next
call after a failed registration retries it. -/
theorem c3_registration_idempotency :
    (∀ (cfg : Defaults) (now1 now2 : Int) (cache : Finset String)
        (status1 : Nat) (body1 : RespBody) (er1 rr2 er2 : TransportResult)
        (p1 p2 : LogParams),
      applyTraceSuffix cfg p1.traceKey = applyTraceSuffix cfg p2.traceKey →
      applyTraceSuffix cfg p1.traceKey ∉ cache →
      tsOutOfRange (effectiveTimestamp cfg now1 p1) = false →
      (∃ s1, effectiveSender p1.eventSender cfg.sender = some s1) →
      status1 < 400 →
      tsOutOfRange (effectiveTimestamp cfg now2 p2) = false →
      (∃ s2, effectiveSender p2.eventSender cfg.sender = some s2) →
      registerCallCount
          ((logTraceEvent cfg now1 cache (TransportResult.ok status1 body1) er1 p1).calls
            ++ (logTraceEvent cfg now2
                  (logTraceEvent cfg now1 cache (TransportResult.ok status1 body1) er1 p1).cache
                  rr2 er2 p2).calls) = 1
      ∧ postEventCallCount
          ((logTraceEvent cfg now1 cache (TransportResult.ok status1 body1) er1 p1).calls
            ++ (logTraceEvent cfg now2
                  (logTraceEvent cfg now1 cache (TransportResult.ok status1 body1) er1 p1).cache
                  rr2 er2 p2).calls) = 2)
    ∧ (∀ (cfg : Defaults) (nowMs : Int) (cache : Finset String)
        (rr er : TransportResult) (p : LogParams),
      applyTraceSuffix cfg p.traceKey ∉ cache →
      tsOutOfRange (effectiveTimestamp cfg nowMs p) = false →
      (∃ s, effectiveSender p.eventSender cfg.sender = some s) →
      ((∃ msg, rr = TransportResult.netFail msg)
        ∨ (∃ st b, rr = TransportResult.ok st b ∧ 400 ≤ st)) →
      (∃ d, (logTraceEventInner cfg nowMs cache rr er p).result
          = Except.error (HlError.registrationFailed d))
      ∧ (logTraceEventInner cfg nowMs cache rr er p).cache = cache
      ∧ registerCallCount (logTraceEventInner cfg nowMs cache rr er p).calls = 1
      ∧ postEventCallCount (logTraceEventInner cfg nowMs cache rr er p).calls = 0)
    ∧ (∀ (cfg : Defaults) (nowMs : Int) (cache : Finset String)
        (rr er : TransportResult) (p : LogParams),
      applyTraceSuffix cfg p.traceKey ∉ cache →
      tsOutOfRange (effectiveTimestamp cfg nowMs p) = false →
      (∃ s, effectiveSender p.eventSender cfg.sender = some s) →
      registerCallCount (logTraceEventInner cfg nowMs cache rr er p).calls = 1) := by
  refine ⟨?_, ?_, ?_⟩
  · rintro cfg now1 now2 cache status1 body1 er1 rr2 er2 p1 p2 hkey hnmem
      hts1 ⟨s1, hs1⟩ hst hts2 ⟨s2, hs2⟩
    have h1 := inner_register_ok cfg now1 cache status1 body1 er1 p1 s1
      hts1 hs1 hnmem hst
    have hcalls1 : (logTraceEvent cfg now1 cache (TransportResult.ok status1 body1) er1 p1).calls
        = [NetCall.registerTrace (canonicalRegisterPayload cfg p1)]
          ++ [NetCall.postEvent (canonicalEventPayload cfg now1 p1 s1)] := by
      rw [logTraceEvent_calls, h1, submitEvent_calls]
    have hcache1 : (logTraceEvent cfg now1 cache (TransportResult.ok status1 body1) er1 p1).cache
        = insert (applyTraceSuffix cfg p1.traceKey) cache := by
      rw [logTraceEvent_cache, h1, submitEvent_cache]
    have hmem2 : applyTraceSuffix cfg p2.traceKey
        ∈ (logTraceEvent cfg now1 cache (TransportResult.ok status1 body1) er1 p1).cache := by
      rw [hcache1, ← hkey]
      exact Finset.mem_insert_self _ _
    have h2 := inner_cached cfg now2
      (logTraceEvent cfg now1 cache (TransportResult.ok status1 body1) er1 p1).cache
      rr2 er2 p2 s2 hts2 hs2 hmem2
    have hcalls2 : (logTraceEvent cfg now2
        (logTraceEvent cfg now1 cache (TransportResult.ok status1 body1) er1 p1).cache
        rr2 er2 p2).calls
        = [] ++ [NetCall.postEvent (canonicalEventPayload cfg now2 p2 s2)] := by
      rw [logTraceEvent_calls, h2, submitEvent_calls]
    rw [hcalls1, hcalls2]
    constructor <;>
      simp [registerCallCount, postEventCallCount, isRegisterCall, isPostEventCall]
  · rintro cfg nowMs cache rr er p hnmem hts ⟨s, hs⟩ hfail
    rcases hfail with ⟨msg, rfl⟩ | ⟨st, b, rfl, hst⟩
    · rw [inner_register_netfail cfg nowMs cache msg er p s hts hs hnmem]
      refine ⟨⟨registerCatchMessage msg, rfl⟩, rfl, ?_, ?_⟩ <;>
        simp [registerCallCount, postEventCallCount, isRegisterCall, isPostEventCall]
    · rw [inner_register_status_fail cfg nowMs cache st b er p s hts hs hnmem hst]
      refine ⟨⟨"registerTrace err: " ++ registerErrorDetails b st, rfl⟩, rfl, ?_, ?_⟩ <;>
        simp [registerCallCount, postEventCallCount, isRegisterCall, isPostEventCall]
  · rintro cfg nowMs cache rr er p hnmem hts ⟨s, hs⟩
    cases rr with
    | netFail msg =>
      rw [inner_register_netfail cfg nowMs cache msg er p s hts hs hnmem]
      simp [registerCallCount, isRegisterCall]
    | ok st b =>
      by_cases hst : 400 ≤ st
      · rw [inner_register_status_fail cfg nowMs cache st b er p s hts hs hnmem hst]
        simp [registerCallCount, isRegisterCall]
      · rw [inner_register_ok cfg nowMs cache st b er p s hts hs hnmem (by omega),
          submitEvent_calls]
        simp [registerCallCount, isRegisterCall, isPostEventCall]

/-- Witness for C3 at a concrete pair of valid calls for the same key: one
registration call and two event submissions. -/
theorem c3_registration_idempotency_witness :
    registerCallCount ((logTraceEvent cfg0 0 ∅ (TransportResult.ok 200 body200) okResp p0).calls
        ++ (logTraceEvent cfg0 0
              (logTraceEvent cfg0 0 ∅ (TransportResult.ok 200 body200) okResp p0).cache
              okResp okResp p0).calls) = 1
    ∧ postEventCallCount ((logTraceEvent cfg0 0 ∅ (TransportResult.ok 200 body200) okResp p0).calls
        ++ (logTraceEvent cfg0 0
              (logTraceEvent cfg0 0 ∅ (TransportResult.ok 200 body200) okResp p0).cache
              okResp okResp p0).calls) = 2 :=
  c3_registration_idempotency.1 cfg0 0 0 ∅ 200 body200 okResp okResp okResp
    p0 p0 rfl (by decide) (by decide) ⟨"svc", by decide⟩ (by decide)
    (by decide) ⟨"svc", by decide⟩

end Helles
